import Mathlib

/-!
Shallow embedding of the session-management core of the MCP terminal manager
(`src/index.ts`).  The server keeps a process-wide `Map<string, Session>`;
each `Session` owns a pty-backed process and a string `outputBuffer`.  Tool
handlers (`create_terminal`, `run_command`, `read_output`, `kill_terminal`,
`list_terminals`, `get_system_logs`) mutate this registry; pty `onData` /
`onExit` listeners append to the buffer.  Machine-level side effects (spawn,
stdin writes, kill signals) are modelled as an explicit effect list; the pty
process's input stream is modelled as the ordered list of strings written to
it.  The random session id (`Math.random().toString(36).substring(7)`) is an
oracle input to `createTerminal`.
-/

namespace TerminalMCP

/-- Model of one spawned pty process (`pty.spawn(file, args, {cwd, ...})`).
`writes` is the ordered sequence of strings written to its input stream;
`rootPw` records the sudo `-S` secret the spawn was configured with (`none`
for a plain shell spawn); `killed` records whether `process.kill()` ran. -/
structure PtyProcess where
  file : String
  args : List String
  cwd : String
  rootPw : Option String
  writes : List String
  killed : Bool
  deriving Repr, DecidableEq

/-- The `Session` interface of `index.ts` (lines 18-22): id, process handle,
and the accumulated-but-unread output. -/
structure Session where
  id : String
  process : PtyProcess
  outputBuffer : String
  deriving Repr, DecidableEq

/-- The registry `const sessions: Map<string, Session>`, embedded as an
association list in insertion order (JS `Map` preserves insertion order and
holds at most one entry per key). -/
abbrev Registry := List (String × Session)

/-- `sessions.get(id)`: first (and, for a real `Map`, only) binding of `id`. -/
def Registry.get : Registry → String → Option Session
  | [], _ => none
  | (k, v) :: rest, id => if k = id then some v else Registry.get rest id

/-- `sessions.set(id, s)`: overwrite an existing binding in place, else
append at the end (JS `Map.set` keeps the original insertion position). -/
def Registry.set : Registry → String → Session → Registry
  | [], id, s => [(id, s)]
  | (k, v) :: rest, id, s =>
    if k = id then (id, s) :: rest else (k, v) :: Registry.set rest id s

/-- In-place mutation of the session stored under `id` (the handlers fetch
the object with `sessions.get` and mutate its fields). -/
def Registry.update : Registry → String → (Session → Session) → Registry
  | [], _, _ => []
  | (k, v) :: rest, id, f =>
    if k = id then (k, f v) :: Registry.update rest id f
    else (k, v) :: Registry.update rest id f

/-- `sessions.delete(id)` (a JS `Map` holds at most one binding per key, so
removing every binding of `id` is the same operation). -/
def Registry.delete : Registry → String → Registry
  | [], _ => []
  | (k, v) :: rest, id =>
    if k = id then Registry.delete rest id else (k, v) :: Registry.delete rest id

/-- `Array.from(sessions.keys())`, in insertion order. -/
def Registry.keys : Registry → List String
  | [] => []
  | (k, _) :: rest => k :: Registry.keys rest

/-- JavaScript `x || d` on an optional string argument: the default is used
when the argument is absent or falsy (the empty string). -/
def jsOr (x : Option String) (d : String) : String :=
  match x with
  | none => d
  | some s => if s = "" then d else s

/-- JavaScript truthiness of an optional string (`if (rootPassword)`,
`if (!shell)`): present and non-empty. -/
def jsTruthy (x : Option String) : Bool :=
  match x with
  | none => false
  | some s => s != ""

/-- JavaScript `x || d` on an optional numeric argument: `0` is falsy. -/
def jsOrNum (x : Option Int) (d : Int) : Int :=
  match x with
  | none => d
  | some n => if n = 0 then d else n

/-- JavaScript `s.endsWith(t)` (`command.endsWith("\n")` in `run_command`):
`t` is a suffix of `s`. -/
def jsEndsWith (s t : String) : Bool :=
  t.data.isSuffixOf s.data

/-- Ambient host facts the handlers consult: `os.platform()`,
`process.env.SHELL`, `os.homedir()`. -/
structure Env where
  platform : String
  envShell : Option String
  homedir : String
  deriving Repr, DecidableEq

/-- Machine-level side effects emitted by the handlers, in program order. -/
inductive Effect where
  | spawn (file : String) (args : List String) (cwd : String)
  | write (sessionId : String) (data : String)
  | kill (sessionId : String)
  deriving Repr, DecidableEq

/-- Arguments of the `create_terminal` tool. -/
structure CreateArgs where
  cwd : Option String
  shell : Option String
  root_password : Option String
  deriving Repr, DecidableEq

/-- The descriptor `create_terminal` serialises into its text result:
`{ session_id, shell, cwd, mode }`. -/
structure CreateResult where
  session_id : String
  shell : String
  cwd : String
  mode : String
  deriving Repr, DecidableEq

/-- The platform-default shell (`index.ts` line 170):
`os.platform() === "win32" ? "powershell.exe" : (process.env.SHELL || "bash")`. -/
def defaultShell (env : Env) : String :=
  if env.platform = "win32" then "powershell.exe" else jsOr env.envShell "bash"

/-- The process `create_terminal` spawns (`index.ts` lines 173-197): with a
truthy root password, `sudo -S -p '' <shell>` whose stdin immediately
receives the password plus a newline; otherwise the plain shell with no
initial write. -/
def spawnedProcess (env : Env) (a : CreateArgs) : PtyProcess :=
  let cwd := jsOr a.cwd env.homedir
  let shell := jsOr a.shell (defaultShell env)
  if jsTruthy a.root_password then
    let pw := a.root_password.getD ""
    { file := "sudo", args := ["-S", "-p", "", shell], cwd := cwd,
      rootPw := some pw, writes := [pw ++ "\n"], killed := false }
  else
    { file := shell, args := [], cwd := cwd,
      rootPw := none, writes := [], killed := false }

/-- The `Session` object `create_terminal` registers (`index.ts` lines
199-205): fresh random id, the spawned process, an empty buffer. -/
def createdSession (env : Env) (newId : String) (a : CreateArgs) : Session :=
  { id := newId, process := spawnedProcess env a, outputBuffer := "" }

/-- Side effects of `create_terminal`, in program order: the spawn, then the
password write when a truthy root password was supplied. -/
def createEffects (env : Env) (newId : String) (a : CreateArgs) : List Effect :=
  let cwd := jsOr a.cwd env.homedir
  let shell := jsOr a.shell (defaultShell env)
  if jsTruthy a.root_password then
    [Effect.spawn "sudo" ["-S", "-p", "", shell] cwd,
     Effect.write newId (a.root_password.getD "" ++ "\n")]
  else
    [Effect.spawn shell [] cwd]

/-- The `create_terminal` handler (`index.ts` lines 164-224).  `newId` is the
value of `Math.random().toString(36).substring(7)` — an oracle, since the
handler performs no freshness check.  Resolves `cwd` and `shell`, spawns the
process, registers the session with an empty buffer under `newId`
(`sessions.set`, overwriting on an id collision), and returns the
descriptor. -/
def createTerminal (env : Env) (newId : String) (a : CreateArgs) (st : Registry) :
    CreateResult × Registry × List Effect :=
  ({ session_id := newId, shell := jsOr a.shell (defaultShell env),
     cwd := jsOr a.cwd env.homedir,
     mode := if jsTruthy a.root_password then "root" else "user" },
   Registry.set st newId (createdSession env newId a),
   createEffects env newId a)

/-- The `run_command` handler (`index.ts` lines 227-246).  Unknown id throws
`Session <id> not found.`; otherwise writes the command — with a newline
appended when the caller did not end it with one — to the process's input
stream and acknowledges immediately. -/
def runCommand (id cmd : String) (st : Registry) :
    Except String (String × Registry × List Effect) :=
  match Registry.get st id with
  | none => .error ("Session " ++ id ++ " not found.")
  | some _ =>
    let payload := if jsEndsWith cmd "\n" then cmd else cmd ++ "\n"
    .ok ("Command sent to session " ++ id ++ ".",
         Registry.update st id fun s =>
           { s with process := { s.process with writes := s.process.writes ++ [payload] } },
         [Effect.write id payload])

/-- The `read_output` handler (`index.ts` lines 248-266).  Unknown id throws;
otherwise returns the buffer contents and resets the buffer to `""`. -/
def readOutput (id : String) (st : Registry) :
    Except String (String × Registry) :=
  match Registry.get st id with
  | none => .error ("Session " ++ id ++ " not found.")
  | some s =>
    .ok (s.outputBuffer, Registry.update st id fun t => { t with outputBuffer := "" })

/-- The `kill_terminal` handler (`index.ts` lines 268-286).  Unknown id
throws; otherwise calls `session.process.kill()` and deletes the registry
entry, unconditionally. -/
def killTerminal (id : String) (st : Registry) :
    Except String (String × Registry × List Effect) :=
  match Registry.get st id with
  | none => .error ("Session " ++ id ++ " not found.")
  | some _ =>
    .ok ("Session " ++ id ++ " killed.", Registry.delete st id, [Effect.kill id])

/-- The `list_terminals` handler (`index.ts` lines 288-298): snapshot of the
registered session ids. -/
def listTerminals (st : Registry) : List String :=
  Registry.keys st

/-- The `ptyProcess.onData` listener (`index.ts` lines 207-209): appends the
arriving chunk to the session's buffer.  A chunk for an id no longer in the
registry mutates only the unreachable captured object, a no-op here. -/
def onData (id chunk : String) (st : Registry) : Registry :=
  Registry.update st id fun s => { s with outputBuffer := s.outputBuffer ++ chunk }

/-- The `ptyProcess.onExit` listener (`index.ts` lines 211-213): appends the
exit marker to the session's buffer; the session is not removed. -/
def exitMarker : String := "\n[Process exited]\n"

/-- Registry effect of a spontaneous process exit for session `id`. -/
def onExit (id : String) (st : Registry) : Registry :=
  Registry.update st id fun s => { s with outputBuffer := s.outputBuffer ++ exitMarker }

/-- Uniform tool-result envelope: text payload plus the `isError` flag the
catch-all boundary sets. -/
structure ToolResult where
  text : String
  isError : Bool
  deriving Repr, DecidableEq

/-- The dispatch boundary's `try/catch` (`index.ts` lines 389-399): a thrown
error becomes a result `Error: <message>` flagged `isError`, and the registry
is left as it was (every handler throws before mutating). -/
def wrapCall (st : Registry) : Except String (String × Registry) → ToolResult × Registry
  | .ok (t, st') => ({ text := t, isError := false }, st')
  | .error msg => ({ text := "Error: " ++ msg, isError := true }, st)

/-- `run_command` as seen through the dispatch boundary. -/
def callRunCommand (id cmd : String) (st : Registry) : ToolResult × Registry :=
  wrapCall st ((runCommand id cmd st).map fun o => (o.1, o.2.1))

/-- `read_output` as seen through the dispatch boundary. -/
def callReadOutput (id : String) (st : Registry) : ToolResult × Registry :=
  wrapCall st (readOutput id st)

/-- `kill_terminal` as seen through the dispatch boundary. -/
def callKillTerminal (id : String) (st : Registry) : ToolResult × Registry :=
  wrapCall st ((killTerminal id st).map fun o => (o.1, o.2.1))

/-- Arguments of the `get_system_logs` tool. -/
structure LogsArgs where
  log_file : Option String
  lines : Option Int
  deriving Repr, DecidableEq

/-- The command `get_system_logs` executes (`index.ts` lines 357-369):
`tail -n <lines> <file>` when the log file exists, else
`journalctl -n <lines> --no-pager`; `fileExists` stands for `fs.existsSync`. -/
def getSystemLogsCmd (fileExists : String → Bool) (a : LogsArgs) : String :=
  let logFile := jsOr a.log_file "/var/log/syslog"
  let lines := jsOrNum a.lines 50
  if fileExists logFile then
    "tail -n " ++ toString lines ++ " " ++ logFile
  else
    "journalctl -n " ++ toString lines ++ " --no-pager"

/-- Events that mutate the registry: the five session tool calls plus the
asynchronous pty callbacks. -/
inductive Action where
  | create (newId : String) (a : CreateArgs)
  | runCmd (id cmd : String)
  | readOut (id : String)
  | kill (id : String)
  | listTerms
  | data (id chunk : String)
  | exit (id : String)
  deriving Repr, DecidableEq

/-- Registry evolution under one event.  Handlers that throw on an unknown id
leave the registry untouched (the mutation sits after the check, and the
dispatch catch preserves state). -/
def stepRegistry (env : Env) (st : Registry) : Action → Registry
  | .create newId a => (createTerminal env newId a st).2.1
  | .runCmd id cmd => (callRunCommand id cmd st).2
  | .readOut id => (callReadOutput id st).2
  | .kill id => (callKillTerminal id st).2
  | .listTerms => st
  | .data id chunk => onData id chunk st
  | .exit id => onExit id st

/-- Running a sequence of events from a starting registry. -/
def runActions (env : Env) (acts : List Action) (st : Registry) : Registry :=
  acts.foldl (stepRegistry env) st

/-- States reachable from the initial empty registry
(`const sessions = new Map()`). -/
def Reachable (env : Env) (st : Registry) : Prop :=
  ∃ acts, runActions env acts [] = st

theorem Registry.get_set_self (r : Registry) (id : String) (s : Session) :
    Registry.get (Registry.set r id s) id = some s := by
  induction r with
  | nil => simp [Registry.set, Registry.get]
  | cons e rest ih =>
    obtain ⟨k, v⟩ := e
    by_cases h : k = id
    · subst h
      simp [Registry.set, Registry.get]
    · simp [Registry.set, Registry.get, h, ih]

theorem Registry.get_set_ne (r : Registry) {id j : String} (s : Session) (h : j ≠ id) :
    Registry.get (Registry.set r id s) j = Registry.get r j := by
  induction r with
  | nil => simp [Registry.set, Registry.get, Ne.symm h]
  | cons e rest ih =>
    obtain ⟨k, v⟩ := e
    by_cases hk : k = id
    · subst hk
      simp [Registry.set, Registry.get, Ne.symm h]
    · by_cases hj : k = j
      · subst hj
        simp [Registry.set, Registry.get, hk]
      · simp [Registry.set, Registry.get, hk, hj, ih]

theorem Registry.get_update_self (r : Registry) (id : String) (f : Session → Session) :
    Registry.get (Registry.update r id f) id = (Registry.get r id).map f := by
  induction r with
  | nil => simp [Registry.update, Registry.get]
  | cons e rest ih =>
    obtain ⟨k, v⟩ := e
    by_cases h : k = id
    · subst h
      simp [Registry.update, Registry.get]
    · simp [Registry.update, Registry.get, h, ih]

theorem Registry.get_update_ne (r : Registry) {id j : String} (f : Session → Session)
    (h : j ≠ id) : Registry.get (Registry.update r id f) j = Registry.get r j := by
  induction r with
  | nil => simp [Registry.update, Registry.get]
  | cons e rest ih =>
    obtain ⟨k, v⟩ := e
    by_cases hk : k = id
    · subst hk
      simp [Registry.update, Registry.get, Ne.symm h, ih]
    · by_cases hj : k = j
      · subst hj
        simp [Registry.update, Registry.get, hk]
      · simp [Registry.update, Registry.get, hk, hj, ih]

theorem Registry.keys_update (r : Registry) (id : String) (f : Session → Session) :
    Registry.keys (Registry.update r id f) = Registry.keys r := by
  induction r with
  | nil => rfl
  | cons e rest ih =>
    obtain ⟨k, v⟩ := e
    by_cases h : k = id
    · subst h
      simp [Registry.update, Registry.keys, ih]
    · simp [Registry.update, Registry.keys, h, ih]

theorem Registry.get_delete_self (r : Registry) (id : String) :
    Registry.get (Registry.delete r id) id = none := by
  induction r with
  | nil => rfl
  | cons e rest ih =>
    obtain ⟨k, v⟩ := e
    by_cases h : k = id
    · subst h
      simp [Registry.delete, ih]
    · simp [Registry.delete, Registry.get, h, ih]

theorem Registry.get_delete_ne (r : Registry) {id j : String} (h : j ≠ id) :
    Registry.get (Registry.delete r id) j = Registry.get r j := by
  induction r with
  | nil => rfl
  | cons e rest ih =>
    obtain ⟨k, v⟩ := e
    by_cases hk : k = id
    · subst hk
      simp [Registry.delete, Registry.get, Ne.symm h, ih]
    · by_cases hj : k = j
      · subst hj
        simp [Registry.delete, Registry.get, hk]
      · simp [Registry.delete, Registry.get, hk, hj, ih]

theorem Registry.mem_keys_iff_get (r : Registry) (id : String) :
    id ∈ Registry.keys r ↔ (Registry.get r id).isSome := by
  induction r with
  | nil => simp [Registry.keys, Registry.get]
  | cons e rest ih =>
    obtain ⟨k, v⟩ := e
    by_cases h : k = id
    · subst h
      simp [Registry.keys, Registry.get]
    · simp [Registry.keys, Registry.get, h, Ne.symm h, ih]

theorem Registry.mem_keys_set (r : Registry) (id j : String) (s : Session) :
    j ∈ Registry.keys (Registry.set r id s) ↔ j = id ∨ j ∈ Registry.keys r := by
  induction r with
  | nil => simp [Registry.set, Registry.keys]
  | cons e rest ih =>
    obtain ⟨k, v⟩ := e
    by_cases h : k = id
    · subst h
      simp [Registry.set, Registry.keys]
    · simp [Registry.set, Registry.keys, h, ih]
      tauto

theorem Registry.nodup_keys_set (r : Registry) (id : String) (s : Session)
    (h : (Registry.keys r).Nodup) : (Registry.keys (Registry.set r id s)).Nodup := by
  induction r with
  | nil => simp [Registry.set, Registry.keys]
  | cons e rest ih =>
    obtain ⟨k, v⟩ := e
    simp only [Registry.keys, List.nodup_cons] at h
    by_cases hk : k = id
    · subst hk
      simpa [Registry.set, Registry.keys] using h
    · simp only [Registry.set, if_neg hk, Registry.keys, List.nodup_cons]
      refine ⟨?_, ih h.2⟩
      intro hmem
      rcases (Registry.mem_keys_set rest id k s).mp hmem with hkk | hkk
      · exact hk hkk
      · exact h.1 hkk

theorem Registry.keys_delete_sublist (r : Registry) (id : String) :
    (Registry.keys (Registry.delete r id)).Sublist (Registry.keys r) := by
  induction r with
  | nil => simp [Registry.delete, Registry.keys]
  | cons e rest ih =>
    obtain ⟨k, v⟩ := e
    by_cases h : k = id
    · subst h
      simp only [Registry.delete, if_pos rfl, Registry.keys]
      exact ih.trans (List.sublist_cons_self k (Registry.keys rest))
    · simp only [Registry.delete, if_neg h, Registry.keys]
      exact ih.cons₂ k

theorem Registry.nodup_keys_delete (r : Registry) (id : String)
    (h : (Registry.keys r).Nodup) : (Registry.keys (Registry.delete r id)).Nodup :=
  (Registry.keys_delete_sublist r id).nodup h

theorem Registry.update_update (r : Registry) (id : String) (f g : Session → Session) :
    Registry.update (Registry.update r id f) id g = Registry.update r id (g ∘ f) := by
  induction r with
  | nil => rfl
  | cons e rest ih =>
    obtain ⟨k, v⟩ := e
    by_cases h : k = id
    · subst h
      simp [Registry.update, ih]
    · simp [Registry.update, h, ih]

theorem Registry.get_none_update (r : Registry) {id : String} (j : String)
    (f : Session → Session) (h : Registry.get r id = none) :
    Registry.get (Registry.update r j f) id = none := by
  by_cases hj : id = j
  · subst hj
    simp [Registry.get_update_self, h]
  · simpa [Registry.get_update_ne r f hj] using h

theorem Registry.get_none_delete (r : Registry) {id : String} (j : String)
    (h : Registry.get r id = none) :
    Registry.get (Registry.delete r j) id = none := by
  by_cases hj : id = j
  · subst hj
    simp [Registry.get_delete_self]
  · simpa [Registry.get_delete_ne r hj] using h

theorem notFoundMsg_runCommand (id cmd : String) (st : Registry)
    (h : Registry.get st id = none) :
    callRunCommand id cmd st =
      ({ text := "Error: " ++ ("Session " ++ id ++ " not found."), isError := true }, st) := by
  simp [callRunCommand, runCommand, h, wrapCall, Except.map]

theorem notFoundMsg_readOutput (id : String) (st : Registry)
    (h : Registry.get st id = none) :
    callReadOutput id st =
      ({ text := "Error: " ++ ("Session " ++ id ++ " not found."), isError := true }, st) := by
  simp [callReadOutput, readOutput, h, wrapCall, Except.map]

theorem notFoundMsg_killTerminal (id : String) (st : Registry)
    (h : Registry.get st id = none) :
    callKillTerminal id st =
      ({ text := "Error: " ++ ("Session " ++ id ++ " not found."), isError := true }, st) := by
  simp [callKillTerminal, killTerminal, h, wrapCall, Except.map]

/-- The stdin payload `run_command` constructs. -/
def commandPayload (cmd : String) : String :=
  if jsEndsWith cmd "\n" then cmd else cmd ++ "\n"

/-- Mutation `run_command` applies to the found session. -/
def appendWrite (payload : String) (s : Session) : Session :=
  { s with process := { s.process with writes := s.process.writes ++ [payload] } }

theorem runCommand_found (id cmd : String) (st : Registry) (s : Session)
    (h : Registry.get st id = some s) :
    runCommand id cmd st =
      .ok ("Command sent to session " ++ id ++ ".",
           Registry.update st id (appendWrite (commandPayload cmd)),
           [Effect.write id (commandPayload cmd)]) := by
  unfold runCommand
  rw [h]
  rfl

/-- Mutation `read_output` applies to the found session. -/
def clearBuffer (s : Session) : Session :=
  { s with outputBuffer := "" }

theorem readOutput_found (id : String) (st : Registry) (s : Session)
    (h : Registry.get st id = some s) :
    readOutput id st = .ok (s.outputBuffer, Registry.update st id clearBuffer) := by
  unfold readOutput
  rw [h]
  rfl

theorem killTerminal_found (id : String) (st : Registry) (s : Session)
    (h : Registry.get st id = some s) :
    killTerminal id st =
      .ok ("Session " ++ id ++ " killed.", Registry.delete st id, [Effect.kill id]) := by
  unfold killTerminal
  rw [h]

theorem stepRegistry_runCmd (env : Env) (id cmd : String) (st : Registry) :
    stepRegistry env st (Action.runCmd id cmd) =
      match Registry.get st id with
      | none => st
      | some _ => Registry.update st id (appendWrite (commandPayload cmd)) := by
  cases h : Registry.get st id with
  | none => simp [stepRegistry, notFoundMsg_runCommand id cmd st h]
  | some s =>
    simp [stepRegistry, callRunCommand, runCommand_found id cmd st s h, wrapCall, Except.map]

theorem stepRegistry_readOut (env : Env) (id : String) (st : Registry) :
    stepRegistry env st (Action.readOut id) =
      match Registry.get st id with
      | none => st
      | some _ => Registry.update st id clearBuffer := by
  cases h : Registry.get st id with
  | none => simp [stepRegistry, notFoundMsg_readOutput id st h]
  | some s =>
    simp [stepRegistry, callReadOutput, readOutput_found id st s h, wrapCall, Except.map]

theorem stepRegistry_kill (env : Env) (id : String) (st : Registry) :
    stepRegistry env st (Action.kill id) =
      match Registry.get st id with
      | none => st
      | some _ => Registry.delete st id := by
  cases h : Registry.get st id with
  | none => simp [stepRegistry, notFoundMsg_killTerminal id st h]
  | some s =>
    simp [stepRegistry, callKillTerminal, killTerminal_found id st s h, wrapCall, Except.map]

theorem nodup_keys_step (env : Env) (a : Action) (st : Registry)
    (h : (Registry.keys st).Nodup) :
    (Registry.keys (stepRegistry env st a)).Nodup := by
  cases a with
  | create newId ca =>
    exact Registry.nodup_keys_set st newId (createdSession env newId ca) h
  | runCmd id cmd =>
    rw [stepRegistry_runCmd]
    cases Registry.get st id with
    | none => exact h
    | some s => simpa [Registry.keys_update] using h
  | readOut id =>
    rw [stepRegistry_readOut]
    cases Registry.get st id with
    | none => exact h
    | some s => simpa [Registry.keys_update] using h
  | kill id =>
    rw [stepRegistry_kill]
    cases Registry.get st id with
    | none => exact h
    | some s => exact Registry.nodup_keys_delete st id h
  | listTerms => exact h
  | data id chunk => simpa [stepRegistry, onData, Registry.keys_update] using h
  | exit id => simpa [stepRegistry, onExit, Registry.keys_update] using h

theorem nodup_keys_runActions (env : Env) (acts : List Action) (st : Registry)
    (h : (Registry.keys st).Nodup) :
    (Registry.keys (runActions env acts st)).Nodup := by
  induction acts generalizing st with
  | nil => exact h
  | cons a rest ih =>
    exact ih (stepRegistry env st a) (nodup_keys_step env a st h)

theorem reachable_nodup_keys (env : Env) (st : Registry) (h : Reachable env st) :
    (Registry.keys st).Nodup := by
  obtain ⟨acts, rfl⟩ := h
  exact nodup_keys_runActions env acts [] List.nodup_nil

theorem Registry.get_some_delete (r : Registry) {id j : String} {s : Session}
    (h : Registry.get (Registry.delete r j) id = some s) :
    Registry.get r id = some s := by
  by_cases hij : id = j
  · subst hij
    rw [Registry.get_delete_self] at h
    cases h
  · rwa [Registry.get_delete_ne r hij] at h

/-- A session spawned with a sudo secret has that secret plus a newline as
the first string ever written to its stdin: every later write sits after it. -/
def RootOk (s : Session) : Prop :=
  ∀ pw, s.process.rootPw = some pw → ∃ cmds, s.process.writes = (pw ++ "\n") :: cmds

/-- Every registered session satisfies `RootOk`. -/
def AllRootOk (st : Registry) : Prop :=
  ∀ id s, Registry.get st id = some s → RootOk s

theorem rootOk_createdSession (env : Env) (newId : String) (a : CreateArgs) :
    RootOk (createdSession env newId a) := by
  intro pw hpw
  by_cases h : jsTruthy a.root_password
  · have h1 : (createdSession env newId a).process.rootPw =
        some (a.root_password.getD "") := by
      simp [createdSession, spawnedProcess, h]
    have h2 : (createdSession env newId a).process.writes =
        [a.root_password.getD "" ++ "\n"] := by
      simp [createdSession, spawnedProcess, h]
    rw [h1] at hpw
    cases hpw
    exact ⟨[], h2⟩
  · have h1 : (createdSession env newId a).process.rootPw = none := by
      simp [createdSession, spawnedProcess, h]
    rw [h1] at hpw
    cases hpw

theorem rootOk_appendWrite (payload : String) (s : Session) (h : RootOk s) :
    RootOk (appendWrite payload s) := by
  intro pw hpw
  obtain ⟨cmds, hc⟩ := h pw hpw
  exact ⟨cmds ++ [payload], by simp [appendWrite, hc]⟩

theorem rootOk_setBuffer (s : Session) (b : String) (h : RootOk s) :
    RootOk { s with outputBuffer := b } := by
  intro pw hpw
  exact h pw hpw

theorem allRootOk_update (st : Registry) (j : String) (f : Session → Session)
    (hf : ∀ s, RootOk s → RootOk (f s)) (h : AllRootOk st) :
    AllRootOk (Registry.update st j f) := by
  intro i s hget
  by_cases hij : i = j
  · subst hij
    rw [Registry.get_update_self] at hget
    cases hst : Registry.get st i with
    | none => rw [hst] at hget; cases hget
    | some t =>
      rw [hst] at hget
      have hs : f t = s := by simpa using hget
      rw [← hs]
      exact hf t (h i t hst)
  · rw [Registry.get_update_ne st f hij] at hget
    exact h i s hget

theorem allRootOk_step (env : Env) (a : Action) (st : Registry)
    (h : AllRootOk st) : AllRootOk (stepRegistry env st a) := by
  cases a with
  | create newId ca =>
    intro i s hget
    by_cases hij : i = newId
    · subst hij
      rw [show stepRegistry env st (Action.create i ca) =
            Registry.set st i (createdSession env i ca) from rfl,
          Registry.get_set_self] at hget
      cases hget
      exact rootOk_createdSession env i ca
    · rw [show stepRegistry env st (Action.create newId ca) =
            Registry.set st newId (createdSession env newId ca) from rfl,
          Registry.get_set_ne st _ hij] at hget
      exact h i s hget
  | runCmd id cmd =>
    rw [stepRegistry_runCmd]
    cases Registry.get st id with
    | none => exact h
    | some s =>
      exact allRootOk_update st id _ (fun s hs => rootOk_appendWrite _ s hs) h
  | readOut id =>
    rw [stepRegistry_readOut]
    cases Registry.get st id with
    | none => exact h
    | some s =>
      exact allRootOk_update st id _ (fun s hs => rootOk_setBuffer s "" hs) h
  | kill id =>
    rw [stepRegistry_kill]
    cases Registry.get st id with
    | none => exact h
    | some s =>
      intro i t hget
      exact h i t (Registry.get_some_delete st hget)
  | listTerms => exact h
  | data id chunk =>
    exact allRootOk_update st id _
      (fun s hs => rootOk_setBuffer s (s.outputBuffer ++ chunk) hs) h
  | exit id =>
    exact allRootOk_update st id _
      (fun s hs => rootOk_setBuffer s (s.outputBuffer ++ exitMarker) hs) h

theorem allRootOk_runActions (env : Env) (acts : List Action) (st : Registry)
    (h : AllRootOk st) : AllRootOk (runActions env acts st) := by
  induction acts generalizing st with
  | nil => exact h
  | cons a rest ih => exact ih (stepRegistry env st a) (allRootOk_step env a st h)

theorem reachable_allRootOk (env : Env) (st : Registry) (h : Reachable env st) :
    AllRootOk st := by
  obtain ⟨acts, rfl⟩ := h
  exact allRootOk_runActions env acts [] (fun i s hget => by cases hget)

/-- Actions that do not (re-)create a session under `id`. -/
def avoidsCreate (id : String) : Action → Prop
  | .create j _ => j ≠ id
  | _ => True

theorem get_none_step (env : Env) (a : Action) (st : Registry) {id : String}
    (h : Registry.get st id = none) (ha : avoidsCreate id a) :
    Registry.get (stepRegistry env st a) id = none := by
  cases a with
  | create newId ca =>
    have hne : id ≠ newId := fun he => ha he.symm
    rw [show stepRegistry env st (Action.create newId ca) =
          Registry.set st newId (createdSession env newId ca) from rfl,
        Registry.get_set_ne st _ hne]
    exact h
  | runCmd j cmd =>
    rw [stepRegistry_runCmd]
    cases Registry.get st j with
    | none => exact h
    | some s => exact Registry.get_none_update st j _ h
  | readOut j =>
    rw [stepRegistry_readOut]
    cases Registry.get st j with
    | none => exact h
    | some s => exact Registry.get_none_update st j _ h
  | kill j =>
    rw [stepRegistry_kill]
    cases Registry.get st j with
    | none => exact h
    | some s => exact Registry.get_none_delete st j h
  | listTerms => exact h
  | data j chunk => exact Registry.get_none_update st j _ h
  | exit j => exact Registry.get_none_update st j _ h

theorem get_none_runActions (env : Env) (acts : List Action) (st : Registry) {id : String}
    (h : Registry.get st id = none) (ha : ∀ a ∈ acts, avoidsCreate id a) :
    Registry.get (runActions env acts st) id = none := by
  induction acts generalizing st with
  | nil => exact h
  | cons a rest ih =>
    exact ih (stepRegistry env st a)
      (get_none_step env a st h (ha a (List.mem_cons_self a rest)))
      (fun b hb => ha b (List.mem_cons_of_mem a hb))

theorem get_foldData (env : Env) (id : String) (chunks : List String) :
    ∀ (st : Registry) (s : Session), Registry.get st id = some s →
      Registry.get (runActions env (chunks.map (Action.data id)) st) id =
        some { s with outputBuffer := chunks.foldl (fun b c => b ++ c) s.outputBuffer } := by
  induction chunks with
  | nil => intro st s h; simpa [runActions] using h
  | cons c rest ih =>
    intro st s h
    have h1 : Registry.get (onData id c st) id =
        some { s with outputBuffer := s.outputBuffer ++ c } := by
      rw [onData, Registry.get_update_self, h]
      rfl
    simpa [runActions, stepRegistry] using ih (onData id c st) _ h1

/-- Concrete host used by witnesses and counterexamples. -/
def demoEnv : Env :=
  { platform := "linux", envShell := some "/bin/zsh", homedir := "/home/u" }

/-- Defaulted `create_terminal` arguments used by witnesses. -/
def demoArgs : CreateArgs :=
  { cwd := none, shell := none, root_password := none }

/-- C1, as stated, is false: `create_terminal` draws
`Math.random().toString(36).substring(7)` with no freshness check, and
`sessions.set` silently overwrites on a collision.  From the reachable state
holding a session under `"abc"`, a creation whose random draw is `"abc"`
again yields a session id that IS present in the registry at the moment of
creation. -/
theorem create_id_collision_cex :
    Reachable demoEnv ((createTerminal demoEnv "abc" demoArgs []).2.1) ∧
    "abc" ∈ Registry.keys ((createTerminal demoEnv "abc" demoArgs []).2.1) ∧
    (createTerminal demoEnv "abc" demoArgs
        ((createTerminal demoEnv "abc" demoArgs []).2.1)).1.session_id = "abc" := by
  refine ⟨⟨[Action.create "abc" demoArgs], rfl⟩, ?_, rfl⟩
  decide

/-- C1 (amended): provided the freshly drawn random id does not collide with
a registered id — the intended, overwhelmingly probable case — the created
session's id was absent from the registry at the moment of creation,
`list_terminals` includes it immediately afterwards, and the registry of any
reachable state never holds two entries under the same id. -/
theorem create_fresh_id_registration (env : Env) (newId : String) (a : CreateArgs)
    (st : Registry) (hfresh : newId ∉ Registry.keys st) :
    (createTerminal env newId a st).1.session_id = newId ∧
    Registry.get st newId = none ∧
    newId ∈ listTerminals (createTerminal env newId a st).2.1 ∧
    (∀ st', Reachable env st' → (Registry.keys st').Nodup) := by
  refine ⟨rfl, ?_, ?_, fun st' h => reachable_nodup_keys env st' h⟩
  · rw [← Option.not_isSome_iff_eq_none]
    intro hs
    exact hfresh ((Registry.mem_keys_iff_get st newId).mpr hs)
  · exact (Registry.mem_keys_set st newId newId (createdSession env newId a)).mpr (Or.inl rfl)

theorem create_fresh_id_registration_witness :
    "k1" ∉ Registry.keys ([] : Registry) ∧
    ((createTerminal demoEnv "k1" demoArgs []).1.session_id = "k1" ∧
     Registry.get ([] : Registry) "k1" = none ∧
     "k1" ∈ listTerminals (createTerminal demoEnv "k1" demoArgs []).2.1 ∧
     (∀ st', Reachable demoEnv st' → (Registry.keys st').Nodup)) :=
  ⟨by decide, create_fresh_id_registration demoEnv "k1" demoArgs [] (by decide)⟩

/-- C2: for a registered session, `read_output` returns the buffer contents
and swaps in the empty string; an immediate second drain returns the empty
string and leaves the registry exactly where the first drain left it (the
composition of two consecutive drains equals one drain); and after the
process appends chunks to a freshly drained session, one drain returns
exactly their concatenation.  Atomicity holds trivially in the
single-threaded event-loop model: a drain is one registry transition. -/
theorem readOutput_drain_exactly_once (env : Env) (st : Registry) (id : String)
    (s : Session) (h : Registry.get st id = some s) :
    readOutput id st = .ok (s.outputBuffer, Registry.update st id clearBuffer) ∧
    readOutput id (Registry.update st id clearBuffer) =
      .ok ("", Registry.update st id clearBuffer) ∧
    (∀ chunks : List String,
      readOutput id
          (runActions env (chunks.map (Action.data id)) (Registry.update st id clearBuffer)) =
        .ok (String.join chunks,
          Registry.update
            (runActions env (chunks.map (Action.data id)) (Registry.update st id clearBuffer))
            id clearBuffer)) := by
  have hclear : Registry.get (Registry.update st id clearBuffer) id =
      some (clearBuffer s) := by
    rw [Registry.get_update_self, h]
    rfl
  refine ⟨readOutput_found id st s h, ?_, ?_⟩
  · rw [readOutput_found id _ (clearBuffer s) hclear, Registry.update_update]
    have hcc : clearBuffer ∘ clearBuffer = clearBuffer := by
      funext t
      rfl
    rw [hcc]
    rfl
  · intro chunks
    have h3 := get_foldData env id chunks (Registry.update st id clearBuffer)
      (clearBuffer s) hclear
    rw [readOutput_found id _ _ h3]
    rfl

/-- Registry holding one freshly created (hence freshly drained) session,
used by witnesses. -/
def demoSt : Registry := (createTerminal demoEnv "d1" demoArgs []).2.1

theorem readOutput_drain_exactly_once_witness :
    Registry.get demoSt "d1" = some (createdSession demoEnv "d1" demoArgs) ∧
    (readOutput "d1" demoSt =
      .ok ((createdSession demoEnv "d1" demoArgs).outputBuffer,
           Registry.update demoSt "d1" clearBuffer) ∧
     readOutput "d1" (Registry.update demoSt "d1" clearBuffer) =
      .ok ("", Registry.update demoSt "d1" clearBuffer) ∧
     (∀ chunks : List String,
      readOutput "d1"
          (runActions demoEnv (chunks.map (Action.data "d1"))
            (Registry.update demoSt "d1" clearBuffer)) =
        .ok (String.join chunks,
          Registry.update
            (runActions demoEnv (chunks.map (Action.data "d1"))
              (Registry.update demoSt "d1" clearBuffer))
            "d1" clearBuffer))) :=
  ⟨rfl, readOutput_drain_exactly_once demoEnv demoSt "d1"
    (createdSession demoEnv "d1" demoArgs) rfl⟩

/-- C3: an operation on a session id absent from the registry — for each of
`run_command`, `read_output`, `kill_terminal` — produces a failure result
flagged `isError` whose text names the missing id, and leaves the registry
untouched.  The dispatch boundary is a total function into this uniform
envelope: the thrown `Session ... not found.` error is caught and converted,
never escaping to terminate the server. -/
theorem unknown_id_notFound_error (st : Registry) (id cmd : String)
    (h : Registry.get st id = none) :
    callRunCommand id cmd st =
      ({ text := "Error: " ++ ("Session " ++ id ++ " not found."), isError := true }, st) ∧
    callReadOutput id st =
      ({ text := "Error: " ++ ("Session " ++ id ++ " not found."), isError := true }, st) ∧
    callKillTerminal id st =
      ({ text := "Error: " ++ ("Session " ++ id ++ " not found."), isError := true }, st) ∧
    (∃ pre post, "Error: " ++ ("Session " ++ id ++ " not found.") = pre ++ id ++ post) := by
  refine ⟨notFoundMsg_runCommand id cmd st h, notFoundMsg_readOutput id st h,
    notFoundMsg_killTerminal id st h, "Error: Session ", " not found.", ?_⟩
  rw [← String.append_assoc, ← String.append_assoc]
  have he : ("Error: " ++ "Session " : String) = "Error: Session " := by decide
  rw [he]

theorem unknown_id_notFound_error_witness :
    Registry.get ([] : Registry) "nope" = none ∧
    (callRunCommand "nope" "ls" [] =
      ({ text := "Error: " ++ ("Session " ++ "nope" ++ " not found."), isError := true }, []) ∧
     callReadOutput "nope" [] =
      ({ text := "Error: " ++ ("Session " ++ "nope" ++ " not found."), isError := true }, []) ∧
     callKillTerminal "nope" [] =
      ({ text := "Error: " ++ ("Session " ++ "nope" ++ " not found."), isError := true }, []) ∧
     (∃ pre post, "Error: " ++ ("Session " ++ "nope" ++ " not found.") = pre ++ "nope" ++ post)) :=
  ⟨rfl, unknown_id_notFound_error [] "nope" "ls" rfl⟩

/-- C4: `kill_terminal` on a registered id emits the termination signal for
that session's process and unconditionally deletes the registry entry (the
code never waits for the process to die).  Afterwards `list_terminals` no
longer includes the id, each of the three session operations fails with the
NotFound error result, and the id stays unregistered across any further
actions that do not create a session under it. -/
theorem kill_removes_and_notFound (env : Env) (st : Registry) (id cmd : String)
    (s : Session) (h : Registry.get st id = some s) :
    killTerminal id st =
      .ok ("Session " ++ id ++ " killed.", Registry.delete st id, [Effect.kill id]) ∧
    id ∉ listTerminals (Registry.delete st id) ∧
    (callRunCommand id cmd (Registry.delete st id)).1.isError = true ∧
    (callReadOutput id (Registry.delete st id)).1.isError = true ∧
    (callKillTerminal id (Registry.delete st id)).1.isError = true ∧
    (∀ acts, (∀ a ∈ acts, avoidsCreate id a) →
      Registry.get (runActions env acts (Registry.delete st id)) id = none) := by
  have hd : Registry.get (Registry.delete st id) id = none := Registry.get_delete_self st id
  refine ⟨killTerminal_found id st s h, ?_, ?_, ?_, ?_, ?_⟩
  · intro hmem
    have hs := (Registry.mem_keys_iff_get _ id).mp hmem
    rw [hd] at hs
    simp at hs
  · rw [notFoundMsg_runCommand id cmd _ hd]
  · rw [notFoundMsg_readOutput id _ hd]
  · rw [notFoundMsg_killTerminal id _ hd]
  · intro acts ha
    exact get_none_runActions env acts _ hd ha

theorem kill_removes_and_notFound_witness :
    Registry.get demoSt "d1" = some (createdSession demoEnv "d1" demoArgs) ∧
    (killTerminal "d1" demoSt =
      .ok ("Session " ++ "d1" ++ " killed.", Registry.delete demoSt "d1",
           [Effect.kill "d1"]) ∧
     "d1" ∉ listTerminals (Registry.delete demoSt "d1") ∧
     (callRunCommand "d1" "ls" (Registry.delete demoSt "d1")).1.isError = true ∧
     (callReadOutput "d1" (Registry.delete demoSt "d1")).1.isError = true ∧
     (callKillTerminal "d1" (Registry.delete demoSt "d1")).1.isError = true ∧
     (∀ acts, (∀ a ∈ acts, avoidsCreate "d1" a) →
      Registry.get (runActions demoEnv acts (Registry.delete demoSt "d1")) "d1" = none)) :=
  ⟨rfl, kill_removes_and_notFound demoEnv demoSt "d1" "ls"
    (createdSession demoEnv "d1" demoArgs) rfl⟩

/-- C5: in any state reachable from the empty registry, a session whose
process was spawned with a sudo secret (`create_terminal` with a truthy root
password) has that secret followed by a newline as the FIRST string ever
written to its input stream, so every `run_command` write sits strictly
after it; creation itself performs exactly the password write, and
`run_command` only appends at the end of the stream. -/
theorem root_password_precedes_commands (env : Env) (acts : List Action)
    (id : String) (s : Session) (pw : String)
    (h : Registry.get (runActions env acts []) id = some s)
    (hpw : s.process.rootPw = some pw) :
    (∃ cmds, s.process.writes = (pw ++ "\n") :: cmds) ∧
    (∀ newId a, jsTruthy a.root_password = true →
      (createdSession env newId a).process.rootPw = some (a.root_password.getD "") ∧
      (createdSession env newId a).process.writes = [a.root_password.getD "" ++ "\n"]) ∧
    (∀ cmd, (appendWrite (commandPayload cmd) s).process.writes =
      s.process.writes ++ [commandPayload cmd]) := by
  have hroot := reachable_allRootOk env _ ⟨acts, rfl⟩ id s h
  refine ⟨hroot pw hpw, ?_, fun cmd => rfl⟩
  intro newId a ha
  exact ⟨by simp [createdSession, spawnedProcess, ha],
         by simp [createdSession, spawnedProcess, ha]⟩

/-- Trace used by the C5 witness: a root-mode creation followed by one
command. -/
def demoRootActs : List Action :=
  [Action.create "r1" { cwd := none, shell := none, root_password := some "s3cret" },
   Action.runCmd "r1" "whoami"]

/-- Session state the C5 witness trace ends in. -/
def demoRootSession : Session :=
  { id := "r1",
    process := { file := "sudo", args := ["-S", "-p", "", "/bin/zsh"], cwd := "/home/u",
                 rootPw := some "s3cret", writes := ["s3cret\n", "whoami\n"],
                 killed := false },
    outputBuffer := "" }

theorem root_password_precedes_commands_witness :
    Registry.get (runActions demoEnv demoRootActs []) "r1" = some demoRootSession ∧
    demoRootSession.process.rootPw = some "s3cret" ∧
    ((∃ cmds, demoRootSession.process.writes = ("s3cret" ++ "\n") :: cmds) ∧
     (∀ newId a, jsTruthy a.root_password = true →
      (createdSession demoEnv newId a).process.rootPw = some (a.root_password.getD "") ∧
      (createdSession demoEnv newId a).process.writes = [a.root_password.getD "" ++ "\n"]) ∧
     (∀ cmd, (appendWrite (commandPayload cmd) demoRootSession).process.writes =
      demoRootSession.process.writes ++ [commandPayload cmd])) :=
  ⟨by decide, rfl, root_password_precedes_commands demoEnv demoRootActs "r1"
    demoRootSession "s3cret" (by decide) rfl⟩

/-- C6: when a session's process exits on its own, the `onExit` listener only
appends the exit marker to the buffer: the session stays registered,
`list_terminals` is unchanged, and `read_output` still succeeds, now
returning the buffer with the marker.  Moreover no event other than a
`kill_terminal` call ever removes a registered id. -/
theorem spontaneous_exit_keeps_session (env : Env) (st : Registry) (id : String)
    (s : Session) (h : Registry.get st id = some s) :
    Registry.get (onExit id st) id =
      some { s with outputBuffer := s.outputBuffer ++ exitMarker } ∧
    listTerminals (onExit id st) = listTerminals st ∧
    readOutput id (onExit id st) =
      .ok (s.outputBuffer ++ exitMarker, Registry.update (onExit id st) id clearBuffer) ∧
    (∀ (a : Action) (st₀ : Registry) (j : String), (∀ i, a ≠ Action.kill i) →
      j ∈ listTerminals st₀ → j ∈ listTerminals (stepRegistry env st₀ a)) := by
  have h1 : Registry.get (onExit id st) id =
      some { s with outputBuffer := s.outputBuffer ++ exitMarker } := by
    rw [onExit, Registry.get_update_self, h]
    rfl
  refine ⟨h1, ?_, ?_, ?_⟩
  · rw [show listTerminals (onExit id st) =
        Registry.keys (Registry.update st id
          (fun t => { t with outputBuffer := t.outputBuffer ++ exitMarker })) from rfl,
      Registry.keys_update]
    rfl
  · exact readOutput_found id (onExit id st) _ h1
  · intro a st0 j hnk hj
    cases a with
    | create newId ca =>
      exact (Registry.mem_keys_set st0 newId j (createdSession env newId ca)).mpr (Or.inr hj)
    | runCmd i cmd =>
      rw [stepRegistry_runCmd]
      cases Registry.get st0 i with
      | none => exact hj
      | some t =>
        show j ∈ Registry.keys (Registry.update st0 i (appendWrite (commandPayload cmd)))
        rw [Registry.keys_update]
        exact hj
    | readOut i =>
      rw [stepRegistry_readOut]
      cases Registry.get st0 i with
      | none => exact hj
      | some t =>
        show j ∈ Registry.keys (Registry.update st0 i clearBuffer)
        rw [Registry.keys_update]
        exact hj
    | kill i => exact absurd rfl (hnk i)
    | listTerms => exact hj
    | data i chunk =>
      show j ∈ Registry.keys (Registry.update st0 i
        (fun t => { t with outputBuffer := t.outputBuffer ++ chunk }))
      rw [Registry.keys_update]
      exact hj
    | exit i =>
      show j ∈ Registry.keys (Registry.update st0 i
        (fun t => { t with outputBuffer := t.outputBuffer ++ exitMarker }))
      rw [Registry.keys_update]
      exact hj

theorem spontaneous_exit_keeps_session_witness :
    Registry.get demoSt "d1" = some (createdSession demoEnv "d1" demoArgs) ∧
    (Registry.get (onExit "d1" demoSt) "d1" =
      some { createdSession demoEnv "d1" demoArgs with
             outputBuffer := (createdSession demoEnv "d1" demoArgs).outputBuffer ++
               exitMarker } ∧
     listTerminals (onExit "d1" demoSt) = listTerminals demoSt ∧
     readOutput "d1" (onExit "d1" demoSt) =
      .ok ((createdSession demoEnv "d1" demoArgs).outputBuffer ++ exitMarker,
           Registry.update (onExit "d1" demoSt) "d1" clearBuffer) ∧
     (∀ (a : Action) (st₀ : Registry) (j : String), (∀ i, a ≠ Action.kill i) →
      j ∈ listTerminals st₀ → j ∈ listTerminals (stepRegistry demoEnv st₀ a))) :=
  ⟨rfl, spontaneous_exit_keeps_session demoEnv demoSt "d1"
    (createdSession demoEnv "d1" demoArgs) rfl⟩

/-- C7: `run_command` on a registered session writes the command to the
process's input stream — unchanged when it already ends in a newline, with a
newline appended when it does not — and immediately returns the
acknowledgement text, consulting no output: the write leaves every session's
`outputBuffer` untouched. -/
theorem runCommand_writes_terminated_command (st : Registry) (id cmd : String)
    (s : Session) (h : Registry.get st id = some s) :
    runCommand id cmd st =
      .ok ("Command sent to session " ++ id ++ ".",
           Registry.update st id (appendWrite (commandPayload cmd)),
           [Effect.write id (commandPayload cmd)]) ∧
    (jsEndsWith cmd "\n" = true → commandPayload cmd = cmd) ∧
    (jsEndsWith cmd "\n" = false → commandPayload cmd = cmd ++ "\n") ∧
    Registry.get (Registry.update st id (appendWrite (commandPayload cmd))) id =
      some { s with process :=
        { s.process with writes := s.process.writes ++ [commandPayload cmd] } } ∧
    (∀ t : Session, (appendWrite (commandPayload cmd) t).outputBuffer = t.outputBuffer) := by
  refine ⟨runCommand_found id cmd st s h, ?_, ?_, ?_, fun t => rfl⟩
  · intro he
    simp [commandPayload, he]
  · intro he
    simp [commandPayload, he]
  · rw [Registry.get_update_self, h]
    rfl

theorem runCommand_writes_terminated_command_witness :
    Registry.get demoSt "d1" = some (createdSession demoEnv "d1" demoArgs) ∧
    jsEndsWith "ls" "\n" = false ∧
    commandPayload "ls" = "ls" ++ "\n" ∧
    runCommand "d1" "ls" demoSt =
      .ok ("Command sent to session " ++ "d1" ++ ".",
           Registry.update demoSt "d1" (appendWrite (commandPayload "ls")),
           [Effect.write "d1" (commandPayload "ls")]) :=
  ⟨rfl, by decide,
   (runCommand_writes_terminated_command demoSt "d1" "ls"
     (createdSession demoEnv "d1" demoArgs) rfl).2.2.1 (by decide),
   (runCommand_writes_terminated_command demoSt "d1" "ls"
     (createdSession demoEnv "d1" demoArgs) rfl).1⟩

/-- C8: the descriptor returned by `create_terminal` carries exactly the
generated session id, the resolved shell, the resolved cwd, and the mode.
`cwd` resolves to the caller's value when a (truthy, per the code's `||`)
value is given, else the home directory; `shell` resolves to the caller's
value when given, else `powershell.exe` on win32, else the environment's
configured `SHELL` when set (truthy), else `bash`; `mode` is `root` exactly
when a truthy root password was supplied. -/
theorem create_descriptor_resolution (env : Env) (newId : String) (a : CreateArgs)
    (st : Registry) :
    (createTerminal env newId a st).1.session_id = newId ∧
    (∀ c, a.cwd = some c → c ≠ "" → (createTerminal env newId a st).1.cwd = c) ∧
    ((a.cwd = none ∨ a.cwd = some "") →
      (createTerminal env newId a st).1.cwd = env.homedir) ∧
    (∀ sh, a.shell = some sh → sh ≠ "" → (createTerminal env newId a st).1.shell = sh) ∧
    ((a.shell = none ∨ a.shell = some "") → env.platform = "win32" →
      (createTerminal env newId a st).1.shell = "powershell.exe") ∧
    ((a.shell = none ∨ a.shell = some "") → env.platform ≠ "win32" →
      (∀ es, env.envShell = some es → es ≠ "" →
        (createTerminal env newId a st).1.shell = es) ∧
      ((env.envShell = none ∨ env.envShell = some "") →
        (createTerminal env newId a st).1.shell = "bash")) ∧
    (∀ p, a.root_password = some p → p ≠ "" →
      (createTerminal env newId a st).1.mode = "root") ∧
    ((a.root_password = none ∨ a.root_password = some "") →
      (createTerminal env newId a st).1.mode = "user") := by
  refine ⟨rfl, ?_, ?_, ?_, ?_, ?_, ?_, ?_⟩
  · intro c hc hne
    show jsOr a.cwd env.homedir = c
    rw [hc]
    simp [jsOr, hne]
  · intro hc
    show jsOr a.cwd env.homedir = env.homedir
    rcases hc with hc | hc <;> rw [hc] <;> simp [jsOr]
  · intro sh hs hne
    show jsOr a.shell (defaultShell env) = sh
    rw [hs]
    simp [jsOr, hne]
  · intro hs hp
    show jsOr a.shell (defaultShell env) = "powershell.exe"
    have hd : defaultShell env = "powershell.exe" := by simp [defaultShell, hp]
    rcases hs with hs | hs <;> rw [hs] <;> simp [jsOr, hd]
  · intro hs hp
    have hd : defaultShell env = jsOr env.envShell "bash" := by simp [defaultShell, hp]
    constructor
    · intro es hes hne
      show jsOr a.shell (defaultShell env) = es
      rcases hs with hs1 | hs1 <;> rw [hs1] <;> simp [jsOr, hd, hes, hne]
    · intro hes
      show jsOr a.shell (defaultShell env) = "bash"
      rcases hs with hs1 | hs1 <;> rcases hes with hes1 | hes1 <;>
        rw [hs1] <;> simp [jsOr, hd, hes1]
  · intro p hp hne
    show (if jsTruthy a.root_password then "root" else "user") = "root"
    rw [hp]
    simp [jsTruthy, hne]
  · intro hp
    show (if jsTruthy a.root_password then "root" else "user") = "user"
    rcases hp with hp | hp <;> rw [hp] <;> simp [jsTruthy]

theorem create_descriptor_resolution_witness :
    (createTerminal demoEnv "w8"
      { cwd := some "/tmp", shell := some "fish", root_password := some "pw" }
      []).1.session_id = "w8" ∧
    (createTerminal demoEnv "w8"
      { cwd := some "/tmp", shell := some "fish", root_password := some "pw" }
      []).1.cwd = "/tmp" ∧
    (createTerminal demoEnv "w8"
      { cwd := some "/tmp", shell := some "fish", root_password := some "pw" }
      []).1.shell = "fish" ∧
    (createTerminal demoEnv "w8"
      { cwd := some "/tmp", shell := some "fish", root_password := some "pw" }
      []).1.mode = "root" := by
  have h := create_descriptor_resolution demoEnv "w8"
    { cwd := some "/tmp", shell := some "fish", root_password := some "pw" } []
  exact ⟨h.1, h.2.1 "/tmp" rfl (by decide), h.2.2.2.1 "fish" rfl (by decide),
         h.2.2.2.2.2.2.1 "pw" rfl (by decide)⟩

/-- C9: sessions are fully independent.  A `run_command` on one registered
session and a chunk of process output arriving for it leave every other
registered session's registry entry — its buffer included — exactly as it
was. -/
theorem session_isolation (env : Env) (st : Registry) (id other cmd chunk : String)
    (s₁ s₂ : Session) (hne : other ≠ id)
    (h1 : Registry.get st id = some s₁) (h2 : Registry.get st other = some s₂) :
    Registry.get (stepRegistry env st (Action.runCmd id cmd)) other = some s₂ ∧
    Registry.get (onData id chunk st) other = some s₂ := by
  constructor
  · rw [stepRegistry_runCmd, h1]
    exact (Registry.get_update_ne st _ hne).trans h2
  · exact (Registry.get_update_ne st _ hne).trans h2

/-- Registry with two independently created sessions, used by witnesses. -/
def demoSt2 : Registry := (createTerminal demoEnv "d2" demoArgs demoSt).2.1

theorem session_isolation_witness :
    "d2" ≠ "d1" ∧
    Registry.get demoSt2 "d1" = some (createdSession demoEnv "d1" demoArgs) ∧
    Registry.get demoSt2 "d2" = some (createdSession demoEnv "d2" demoArgs) ∧
    (Registry.get (stepRegistry demoEnv demoSt2 (Action.runCmd "d1" "ls")) "d2" =
      some (createdSession demoEnv "d2" demoArgs) ∧
     Registry.get (onData "d1" "out" demoSt2) "d2" =
      some (createdSession demoEnv "d2" demoArgs)) :=
  ⟨by decide, by decide, by decide,
   session_isolation demoEnv demoSt2 "d1" "d2" "ls" "out"
     (createdSession demoEnv "d1" demoArgs) (createdSession demoEnv "d2" demoArgs)
     (by decide) (by decide) (by decide)⟩

/-- C10: present-but-falsy optional arguments behave exactly as absent ones:
`create_terminal` with `cwd = ""` equals the call without `cwd` (resolving to
the home directory), with `shell = ""` equals the call without `shell`
(resolving to the platform default), and `get_system_logs` with `lines = 0`
equals both the call without `lines` and the call with the default 50. -/
theorem falsy_args_use_defaults (env : Env) (newId : String) (st : Registry)
    (sh rp c : Option String) (fe : String → Bool) (lf : Option String) :
    createTerminal env newId { cwd := some "", shell := sh, root_password := rp } st =
      createTerminal env newId { cwd := none, shell := sh, root_password := rp } st ∧
    (createTerminal env newId { cwd := some "", shell := sh, root_password := rp } st).1.cwd =
      env.homedir ∧
    createTerminal env newId { cwd := c, shell := some "", root_password := rp } st =
      createTerminal env newId { cwd := c, shell := none, root_password := rp } st ∧
    (createTerminal env newId { cwd := c, shell := some "", root_password := rp } st).1.shell =
      defaultShell env ∧
    getSystemLogsCmd fe { log_file := lf, lines := some 0 } =
      getSystemLogsCmd fe { log_file := lf, lines := none } ∧
    getSystemLogsCmd fe { log_file := lf, lines := some 0 } =
      getSystemLogsCmd fe { log_file := lf, lines := some 50 } := by
  refine ⟨?_, ?_, ?_, ?_, ?_, ?_⟩ <;>
    simp [createTerminal, createdSession, spawnedProcess, createEffects,
          getSystemLogsCmd, jsOr, jsOrNum]

end TerminalMCP
